import Mathlib

/-!
Shallow embedding of `src/github-comments-fetcher.go`, a single-file Go
program that resolves `{owner, repo, issueNumber}` from command-line flags
and a cache file, performs two HTTP GETs against the GitHub REST API, and
writes a flat transcript of an issue and its comments to `comments.txt`.

The embedding models one run of `main` as a pure function from a `World`
(flag values, cache-file state, environment token, and the two HTTP
responses the network would deliver) to a trace of observable events
(cache-file writes, HTTP requests, output-file creation and writes) plus
an outcome (normal exit or fatal abort with the message the Go code uses).
HTTP response bodies are modelled at the level of their JSON parse result:
`none` stands for bytes that are not well-formed JSON.
-/

namespace GithubCommentsFetcher

/-- Command-line flag values (`-O` or `--owner`, `-R` or `--repo`, `-I` or
`--issueNumber`);
the empty string is the flag's default, meaning "not supplied". -/
structure Flags where
  owner : String
  repo : String
  issueNumber : String
deriving DecidableEq, Repr

/-- The `{owner, repo, issueNumber}` record persisted in
`github-comments-fetcher-inputs.txt` and used for the API path. -/
structure Inputs where
  owner : String
  repo : String
  issueNumber : String
deriving DecidableEq, Repr

/-- JSON values, the parse trees of response bodies and of the cache file. -/
inductive Json where
  | null
  | bool (b : Bool)
  | num (n : Int)
  | str (s : String)
  | arr (elems : List Json)
  | obj (fields : List (String × Json))

/-- Models Go `time.Time` as a broken-down UTC instant; only the components
the program formats are kept. -/
structure DateTime where
  year : Nat
  month : Nat
  day : Nat
  hour : Nat
  minute : Nat
  second : Nat
deriving DecidableEq, Repr

/-- The zero `time.Time` (January 1, year 1, 00:00:00 UTC), the value a
time field keeps when its JSON key is absent. -/
def DateTime.zero : DateTime := ⟨1, 1, 1, 0, 0, 0⟩

/-- Numeric value of a decimal digit character. -/
def digitVal (c : Char) : Nat := c.toNat - 48

/-- Models parsing of an RFC 3339 timestamp in its canonical UTC form
`YYYY-MM-DDTHH:MM:SSZ`, the shape GitHub timestamps take; this is the
parsing Go performs when `encoding/json` unmarshals into `time.Time`. -/
def parseRFC3339 (s : String) : Option DateTime :=
  match s.toList with
  | [y1, y2, y3, y4, '-', m1, m2, '-', d1, d2, 'T',
     h1, h2, ':', mi1, mi2, ':', s1, s2, 'Z'] =>
    if ([y1, y2, y3, y4, m1, m2, d1, d2, h1, h2, mi1, mi2, s1, s2].all Char.isDigit) then
      let year := 1000 * digitVal y1 + 100 * digitVal y2 + 10 * digitVal y3 + digitVal y4
      let month := 10 * digitVal m1 + digitVal m2
      let day := 10 * digitVal d1 + digitVal d2
      let hour := 10 * digitVal h1 + digitVal h2
      let minute := 10 * digitVal mi1 + digitVal mi2
      let second := 10 * digitVal s1 + digitVal s2
      if 1 ≤ month ∧ month ≤ 12 ∧ 1 ≤ day ∧ day ≤ 31 ∧
         hour ≤ 23 ∧ minute ≤ 59 ∧ second ≤ 59 then
        some ⟨year, month, day, hour, minute, second⟩
      else none
    else none
  | _ => none

/-- Two-digit zero padding, as Go's reference-layout components `01`..`05`. -/
def pad2 (n : Nat) : String := if n < 10 then "0" ++ toString n else toString n

/-- Four-digit zero padding, as Go's reference-layout component `2006`. -/
def pad4 (n : Nat) : String :=
  if n < 10 then "000" ++ toString n
  else if n < 100 then "00" ++ toString n
  else if n < 1000 then "0" ++ toString n
  else toString n

/-- Models `t.Format("2006-01-02 15:04:05")`. -/
def DateTime.format (t : DateTime) : String :=
  pad4 t.year ++ "-" ++ pad2 t.month ++ "-" ++ pad2 t.day ++ " " ++
  pad2 t.hour ++ ":" ++ pad2 t.minute ++ ":" ++ pad2 t.second

/-- GitHub user struct of the source: `User { Login string `json:"login"` }`. -/
structure User where
  login : String
deriving DecidableEq, Repr

/-- GitHub issue/PR struct of the source: title, body, user, `created_at`
(field `DateTime`), `updated_at` (field `UpdatedAt`). -/
structure Issue where
  title : String
  body : String
  user : User
  dateTime : DateTime
  updatedAt : DateTime
deriving DecidableEq, Repr

/-- GitHub comment struct of the source: body, user, `created_at`. -/
structure Comment where
  body : String
  user : User
  dateTime : DateTime
deriving DecidableEq, Repr

/-- Last-binding-wins lookup in a JSON object, matching `encoding/json`,
which fills a struct field once per matching key as it scans the object. -/
def lookupField (fields : List (String × Json)) (k : String) : Option Json :=
  fields.foldl (fun acc p => if p.1 = k then some p.2 else acc) none

/-- Models unmarshalling a JSON object member into a Go `string` field:
an absent key or JSON `null` leaves the zero value, a JSON string is
taken verbatim, anything else is a type-mismatch error. -/
def decodeStringField (fields : List (String × Json)) (k : String) :
    Except String String :=
  match lookupField fields k with
  | none => .ok ""
  | some .null => .ok ""
  | some (.str s) => .ok s
  | some _ => .error ("cannot unmarshal value into string field " ++ k)

/-- Models unmarshalling a JSON object member into a Go `time.Time` field:
absent or `null` leaves the zero time, a string must parse as RFC 3339,
anything else is an error. -/
def decodeTimeField (fields : List (String × Json)) (k : String) :
    Except String DateTime :=
  match lookupField fields k with
  | none => .ok DateTime.zero
  | some .null => .ok DateTime.zero
  | some (.str s) =>
    match parseRFC3339 s with
    | some t => .ok t
    | none => .error ("cannot parse " ++ s ++ " as RFC 3339 time in field " ++ k)
  | some _ => .error ("cannot unmarshal value into time field " ++ k)

/-- Models unmarshalling a JSON value into the `User` struct: only the
`login` key is read, every other key is ignored. -/
def decodeUser (j : Json) : Except String User :=
  match j with
  | .null => .ok ⟨""⟩
  | .obj fields => (decodeStringField fields "login").map User.mk
  | _ => .error "cannot unmarshal value into User"

/-- Models unmarshalling the `user` member of an object into a `User`
field: an absent key leaves the zero `User`. -/
def decodeUserField (fields : List (String × Json)) : Except String User :=
  match lookupField fields "user" with
  | none => .ok ⟨""⟩
  | some j => decodeUser j

/-- Models `json.Unmarshal(body, &issue)`: reads exactly the keys `title`,
`body`, `user`, `created_at`, `updated_at` and ignores all others. -/
def decodeIssue (j : Json) : Except String Issue :=
  match j with
  | .null => .ok ⟨"", "", ⟨""⟩, DateTime.zero, DateTime.zero⟩
  | .obj fields => do
    let title ← decodeStringField fields "title"
    let body ← decodeStringField fields "body"
    let user ← decodeUserField fields
    let created ← decodeTimeField fields "created_at"
    let updated ← decodeTimeField fields "updated_at"
    .ok ⟨title, body, user, created, updated⟩
  | _ => .error "cannot unmarshal value into Issue"

/-- Models unmarshalling one element of the comments array: reads exactly
the keys `body`, `user`, `created_at` and ignores all others. -/
def decodeComment (j : Json) : Except String Comment :=
  match j with
  | .null => .ok ⟨"", ⟨""⟩, DateTime.zero⟩
  | .obj fields => do
    let body ← decodeStringField fields "body"
    let user ← decodeUserField fields
    let created ← decodeTimeField fields "created_at"
    .ok ⟨body, user, created⟩
  | _ => .error "cannot unmarshal value into Comment"

/-- Models `json.Unmarshal(bodyComments, &comments)` into `[]Comment`. -/
def decodeComments (j : Json) : Except String (List Comment) :=
  match j with
  | .null => .ok []
  | .arr elems => elems.mapM decodeComment
  | _ => .error "cannot unmarshal value into a comment slice"

/-- Models `json.Unmarshal` applied to raw response bytes: `none` stands
for bytes that are not well-formed JSON. -/
def unmarshalIssue (body : Option Json) : Except String Issue :=
  match body with
  | none => .error "invalid JSON"
  | some j => decodeIssue j

/-- Models `json.Unmarshal` applied to the comments response bytes. -/
def unmarshalComments (body : Option Json) : Except String (List Comment) :=
  match body with
  | none => .error "invalid JSON"
  | some j => decodeComments j

/-- Lowercase hexadecimal digit, for `\u00XX` escapes. -/
def hexDigit (n : Nat) : String :=
  if n < 10 then toString n
  else if n = 10 then "a" else if n = 11 then "b" else if n = 12 then "c"
  else if n = 13 then "d" else if n = 14 then "e" else "f"

/-- Escaping of one character inside a JSON string literal as Go's
`encoding/json` marshaller performs it (including its default HTML
escaping of `<`, `>`, `&`). -/
def escapeChar (c : Char) : String :=
  if c = '"' then "\\\""
  else if c = '\\' then "\\\\"
  else if c = '\n' then "\\n"
  else if c = '\r' then "\\r"
  else if c = '\t' then "\\t"
  else if c = '<' then "\\u003c"
  else if c = '>' then "\\u003e"
  else if c = '&' then "\\u0026"
  else if c.toNat < 32 then "\\u00" ++ hexDigit (c.toNat / 16) ++ hexDigit (c.toNat % 16)
  else if c.toNat = 8232 then "\\u2028"
  else if c.toNat = 8233 then "\\u2029"
  else String.singleton c

/-- JSON string literal for `s`, as Go's marshaller renders it. -/
def quoteJsonString (s : String) : String :=
  "\"" ++ String.join (s.toList.map escapeChar) ++ "\""

/-- Models `json.MarshalIndent(newInputs, "", "  ")` for the fixed
three-field inputs struct with JSON tags `owner`, `repo`, `issueNumber`:
a pretty-printed object, two-space indent, fields in declaration order. -/
def marshalInputs (i : Inputs) : String :=
  "\x7b\n  \"owner\": " ++ quoteJsonString i.owner ++
  ",\n  \"repo\": " ++ quoteJsonString i.repo ++
  ",\n  \"issueNumber\": " ++ quoteJsonString i.issueNumber ++ "\n\x7d"

/-- State of the cache file `github-comments-fetcher-inputs.txt` when the
run starts: absent (`os.Stat` errors), present but unreadable
(`os.ReadFile` errors), present but not valid JSON for the inputs struct,
or present with a loaded inputs record. -/
inductive CacheFile where
  | absent
  | unreadable
  | malformed
  | content (inputs : Inputs)

/-- Result the environment delivers for one HTTP request: the send fails
(`client.Do` errors), the body read fails (`io.ReadAll` errors, with the
status the response carried), or a response is fully read, carrying the
numeric status code, the status text (as in `resp.Status`), and the JSON
parse of the body (`none` when the bytes are not well-formed JSON). -/
inductive HttpResult where
  | sendFailure
  | readFailure (status : Nat) (statusText : String)
  | ok (status : Nat) (statusText : String) (body : Option Json)

/-- Observable events of one run: a write of the cache file with its full
new content, the read of the token environment variable, an HTTP GET to a
path, the creation (with truncation) of `comments.txt`, and a write of a
string to `comments.txt`. -/
inductive Event where
  | cacheWrite (toContent : String)
  | getenvToken
  | httpGet (path : String)
  | outputCreate
  | outputWrite (s : String)

/-- Termination of one run: normal exit or fatal abort (`panic` or
`log.Fatalf`) with the message of the source. -/
inductive Outcome where
  | success
  | fatal (msg : String)
deriving DecidableEq, Repr

/-- One run's environment: flag values after `flag.Parse`, the cache-file
state, the value of `GITHUB_ACCESS_TOKEN` (empty string when unset), and
the results the network would deliver for the issue request and for the
comments request. -/
structure World where
  flags : Flags
  cache : CacheFile
  token : String
  issueResp : HttpResult
  commentsResp : HttpResult

/-- Parameter handling of `main` (lines 69-124). Returns the pair of the
record written to the cache file and the record the request URLs are
built from (the `currentOwner`, `currentRepo`, `currentIssueNumber`
variables of lines 69-72). With a cache file, the loaded owner and repo
must be non-empty before any flag is considered, then each non-empty flag
overrides the corresponding loaded field, and the merged record is both
persisted and used for the requests (lines 79-98). With no cache file,
the flag values are written to the file with no validation (lines
100-124), but the `current*` variables are never assigned in this branch
and keep their zero values: the requests are then built from empty
strings, not from the flags. -/
def resolveParams (cache : CacheFile) (flags : Flags) :
    Except String (Inputs × Inputs) :=
  match cache with
  | .absent => .ok (⟨flags.owner, flags.repo, flags.issueNumber⟩, ⟨"", "", ""⟩)
  | .unreadable => .error "failed to read inputs from file"
  | .malformed => .error "failed to parse inputs from file"
  | .content i =>
    if i.owner = "" ∨ i.repo = "" then
      .error "The 'owner' and 'repo' fields in github-comments-fetcher-inputs.txt cannot be empty"
    else
      .ok (⟨if flags.owner ≠ "" then flags.owner else i.owner,
            if flags.repo ≠ "" then flags.repo else i.repo,
            if flags.issueNumber ≠ "" then flags.issueNumber else i.issueNumber⟩,
           ⟨if flags.owner ≠ "" then flags.owner else i.owner,
            if flags.repo ≠ "" then flags.repo else i.repo,
            if flags.issueNumber ≠ "" then flags.issueNumber else i.issueNumber⟩)

/-- The request path `fmt.Sprintf("/repos/%s/%s/issues/%s", ...)`. -/
def issuePath (p : Inputs) : String :=
  "/repos/" ++ p.owner ++ "/" ++ p.repo ++ "/issues/" ++ p.issueNumber

/-- Issue phase of `main` (lines 154-177), after the request was sent: a
send failure, then a body-read failure, then a non-200 status, then a JSON
unmarshal failure are checked in this order, each fatal with its message;
otherwise the decoded issue is returned. -/
def fetchIssue (resp : HttpResult) : Except String Issue :=
  match resp with
  | .sendFailure => .error "Failed to send request"
  | .readFailure _ _ => .error "Failed to read response body"
  | .ok status statusText body =>
    if status ≠ 200 then .error ("Request failed with status: " ++ statusText)
    else
      match unmarshalIssue body with
      | .error e => .error ("Failed to parse issue response body: " ++ e)
      | .ok issue => .ok issue

/-- Comments phase of `main` (lines 206-225), after the request was sent,
with the same check order as the issue phase and its own messages. -/
def fetchComments (resp : HttpResult) : Except String (List Comment) :=
  match resp with
  | .sendFailure => .error "Failed to send comments request"
  | .readFailure _ _ => .error "Failed to read comments response body"
  | .ok status statusText body =>
    if status ≠ 200 then .error ("Comments request failed with status: " ++ statusText)
    else
      match unmarshalComments body with
      | .error e => .error ("Failed to parse comments response body: " ++ e)
      | .ok comments => .ok comments

/-- The issue block written first to `comments.txt` (lines 187-188),
ending in the blank line that separates it from the comments. -/
def issueLine (issue : Issue) : String :=
  "Issue Title: " ++ issue.title ++
  "\nIssue Body: " ++ issue.body ++
  "\nIssue Author: " ++ issue.user.login ++
  "\nCreated At: " ++ issue.dateTime.format ++
  "\nUpdated At: " ++ issue.updatedAt.format ++ "\n\n"

/-- The header of the comment at 0-based position `i` (line 236). -/
def commentHeader (i : Nat) (c : Comment) : String :=
  "Comment " ++ toString (i + 1) ++ " by " ++ c.user.login ++ " at " ++ c.dateTime.format

/-- The writes the comment loop (lines 228-248) performs, starting at
0-based position `i`: a separating newline before every comment but the
first, then the header line, then the body line. -/
def commentEvents : Nat → List Comment → List Event
  | _, [] => []
  | i, c :: rest =>
    (if i > 0 then [Event.outputWrite "\n"] else []) ++
    [Event.outputWrite (commentHeader i c ++ ":\n"),
     Event.outputWrite (c.body ++ "\n")] ++
    commentEvents (i + 1) rest

/-- One run of `main` as a trace of observable events and an outcome,
following the source's order: parameter resolution and cache write, token
read, issue GET (at the path built from the `current*` variables), issue
checks and decode, output-file creation and issue write, comments GET,
comments checks and decode, comment writes. Output-file creation and
writes are reliable here; `runFallible` below is the same run under a
filesystem that may fail them, and `run` coincides with it at the
reliable filesystem. -/
def run (w : World) : List Event × Outcome :=
  match resolveParams w.cache w.flags with
  | .error e => ([], .fatal e)
  | .ok (written, current) =>
    if w.token = "" then
      ([.cacheWrite (marshalInputs written), .getenvToken],
       .fatal "GitHub access token not found in environment")
    else
      match fetchIssue w.issueResp with
      | .error e =>
        ([.cacheWrite (marshalInputs written), .getenvToken,
          .httpGet (issuePath current)], .fatal e)
      | .ok issue =>
        match fetchComments w.commentsResp with
        | .error e =>
          ([.cacheWrite (marshalInputs written), .getenvToken,
            .httpGet (issuePath current),
            .outputCreate, .outputWrite (issueLine issue),
            .httpGet (issuePath current ++ "/comments")], .fatal e)
        | .ok comments =>
          ([.cacheWrite (marshalInputs written), .getenvToken,
            .httpGet (issuePath current),
            .outputCreate, .outputWrite (issueLine issue),
            .httpGet (issuePath current ++ "/comments")] ++ commentEvents 0 comments,
           .success)

/-- Behaviour of the filesystem towards `comments.txt` during one run:
whether `os.Create` at line 180 fails, and whether the `k`-th
`WriteString` to the output file (counted from 0, the issue block being
write 0) fails. A failing write is modelled as writing nothing before the
fatal abort. -/
structure OutputFs where
  createFails : Bool
  writeFails : Nat → Bool

/-- The filesystem on which every output-file operation succeeds. -/
def reliableFs : OutputFs := ⟨false, fun _ => false⟩

/-- The comment loop (lines 228-248) under fallible writes: `i` is the
0-based comment index, `k` the index of the next output write. Returns
the writes performed and, when a write fails, the fatal message of the
source line that checks it (lines 231, 240, 246). -/
def commentLoopFallible (fails : Nat → Bool) :
    Nat → Nat → List Comment → List Event × Option String
  | _, _, [] => ([], none)
  | i, k, c :: rest =>
    if i > 0 then
      if fails k then ([], some "Failed to write space to file")
      else if fails (k + 1) then
        ([.outputWrite "\n"], some "Failed to write comment header to file")
      else if fails (k + 2) then
        ([.outputWrite "\n", .outputWrite (commentHeader i c ++ ":\n")],
         some "Failed to write comment body to file")
      else
        let next := commentLoopFallible fails (i + 1) (k + 3) rest
        (.outputWrite "\n" :: .outputWrite (commentHeader i c ++ ":\n") ::
          .outputWrite (c.body ++ "\n") :: next.1, next.2)
    else
      if fails k then ([], some "Failed to write comment header to file")
      else if fails (k + 1) then
        ([.outputWrite (commentHeader i c ++ ":\n")],
         some "Failed to write comment body to file")
      else
        let next := commentLoopFallible fails (i + 1) (k + 2) rest
        (.outputWrite (commentHeader i c ++ ":\n") ::
          .outputWrite (c.body ++ "\n") :: next.1, next.2)

/-- One run of `main` under a filesystem that may fail the creation of
`comments.txt` (fatal at line 181) or any `WriteString` to it (fatal at
lines 190, 231, 240, 246); otherwise identical to `run`. -/
def runFallible (w : World) (io : OutputFs) : List Event × Outcome :=
  match resolveParams w.cache w.flags with
  | .error e => ([], .fatal e)
  | .ok (written, current) =>
    if w.token = "" then
      ([.cacheWrite (marshalInputs written), .getenvToken],
       .fatal "GitHub access token not found in environment")
    else
      match fetchIssue w.issueResp with
      | .error e =>
        ([.cacheWrite (marshalInputs written), .getenvToken,
          .httpGet (issuePath current)], .fatal e)
      | .ok issue =>
        if io.createFails then
          ([.cacheWrite (marshalInputs written), .getenvToken,
            .httpGet (issuePath current)], .fatal "Failed to create file")
        else if io.writeFails 0 then
          ([.cacheWrite (marshalInputs written), .getenvToken,
            .httpGet (issuePath current), .outputCreate],
           .fatal "Failed to write issue details to file")
        else
          match fetchComments w.commentsResp with
          | .error e =>
            ([.cacheWrite (marshalInputs written), .getenvToken,
              .httpGet (issuePath current),
              .outputCreate, .outputWrite (issueLine issue),
              .httpGet (issuePath current ++ "/comments")], .fatal e)
          | .ok comments =>
            let loop := commentLoopFallible io.writeFails 0 1 comments
            ([.cacheWrite (marshalInputs written), .getenvToken,
              .httpGet (issuePath current),
              .outputCreate, .outputWrite (issueLine issue),
              .httpGet (issuePath current ++ "/comments")] ++ loop.1,
             match loop.2 with
             | some m => .fatal m
             | none => .success)

/-- Paths of the HTTP GET requests a trace issued, in order. -/
def httpPaths (events : List Event) : List String :=
  events.filterMap fun e =>
    match e with
    | .httpGet p => some p
    | _ => none

/-- Effect of one event on the cache-file content. -/
def cacheStep (acc : Option String) (e : Event) : Option String :=
  match e with
  | .cacheWrite s => some s
  | _ => acc

/-- Content of the cache file after a trace, `none` when the trace never
wrote it (the file then keeps whatever state it had before the run). -/
def cacheFileAfter (events : List Event) : Option String :=
  events.foldl cacheStep none

/-- Effect of one event on the content of `comments.txt`. -/
def outputStep (acc : Option String) (e : Event) : Option String :=
  match e with
  | .outputCreate => some ""
  | .outputWrite s => acc.map (· ++ s)
  | _ => acc

/-- Content of `comments.txt` after a trace: `none` when the run never
created it (a pre-existing file is untouched), otherwise the
concatenation of the writes since the creating truncation. -/
def outputFileAfter (events : List Event) : Option String :=
  events.foldl outputStep none

/-- Spec-side rendering (spec §4.4) of one comment block: the header line
`Comment <n> by <author> at <timestamp>:` with the 1-based index `n`,
followed by the comment body on the next line. Stated from the spec's
words, to be compared with what the embedded code writes. -/
def specCommentBlock (n : Nat) (c : Comment) : String :=
  "Comment " ++ toString n ++ " by " ++ c.user.login ++ " at " ++
  c.dateTime.format ++ ":\n" ++ c.body ++ "\n"

/-- Spec-side blocks of a comment list, 1-based indices starting at `n`. -/
def specBlocks : Nat → List Comment → List String
  | _, [] => []
  | n, c :: rest => specCommentBlock n c :: specBlocks (n + 1) rest

/-- Join blocks with one separating newline between consecutive blocks;
since every block ends in a newline, the separator renders as exactly one
blank line between consecutive blocks and no blank line before the first. -/
def joinBlankSeparated : List String → String
  | [] => ""
  | [b] => b
  | b :: b2 :: rest => b ++ "\n" ++ joinBlankSeparated (b2 :: rest)

/-- Spec-side rendering (spec §4.4) of the whole transcript: the issue
header block (which ends in a blank line), then the comment blocks in
order with 1-based indices, one blank line between consecutive blocks. -/
def specTranscript (issue : Issue) (comments : List Comment) : String :=
  issueLine issue ++ joinBlankSeparated (specBlocks 1 comments)

/-- Concatenation of the strings a trace writes to the output file. -/
def concatWrites : List Event → String
  | [] => ""
  | Event.outputWrite s :: rest => s ++ concatWrites rest
  | _ :: rest => concatWrites rest

/-- Join blocks, each preceded by a separating newline. -/
def seps : List String → String
  | [] => ""
  | b :: bs => "\n" ++ b ++ seps bs

/-- Sample issue response body: the fixed keys plus an extra `number`
key that the decoder must ignore. -/
def sampleIssueJson : Json :=
  .obj [("title", .str "T"), ("body", .str "B"),
        ("user", .obj [("login", .str "alice")]),
        ("created_at", .str "2023-05-01T10:00:00Z"),
        ("updated_at", .str "2023-05-02T11:30:00Z"),
        ("number", .num 7)]

/-- The issue record `sampleIssueJson` decodes to. -/
def sampleIssue : Issue :=
  ⟨"T", "B", ⟨"alice"⟩, ⟨2023, 5, 1, 10, 0, 0⟩, ⟨2023, 5, 2, 11, 30, 0⟩⟩

/-- Sample comment element of the comments response body. -/
def sampleCommentJson : Json :=
  .obj [("body", .str "hello"), ("user", .obj [("login", .str "bob")]),
        ("created_at", .str "2023-05-03T09:15:00Z")]

/-- The comment record `sampleCommentJson` decodes to. -/
def sampleComment : Comment := ⟨"hello", ⟨"bob"⟩, ⟨2023, 5, 3, 9, 15, 0⟩⟩

/-- A run environment in which everything succeeds: no cache file, all
flags supplied, token present, both requests answered 200 with well-formed
bodies. -/
def goodWorld : World :=
  ⟨⟨"a", "b", "1"⟩, .absent, "tok",
   .ok 200 "200 OK" (some sampleIssueJson),
   .ok 200 "200 OK" (some (.arr [sampleCommentJson]))⟩

/-- Like `goodWorld`, but the comments endpoint answers 404. -/
def commentsFailWorld : World :=
  ⟨⟨"a", "b", "1"⟩, .absent, "tok",
   .ok 200 "200 OK" (some sampleIssueJson),
   .ok 404 "404 Not Found" (some (.arr []))⟩

/-- Like `goodWorld`, but the issue endpoint answers 404. -/
def issueFailWorld : World :=
  ⟨⟨"a", "b", "1"⟩, .absent, "tok",
   .ok 404 "404 Not Found" (some .null),
   .ok 200 "200 OK" (some (.arr [sampleCommentJson]))⟩

/-- A run environment whose cache file holds an empty `owner`, while the
flags supply every field. -/
def emptyOwnerCacheWorld : World :=
  ⟨⟨"o", "r", "9"⟩, .content ⟨"", "r", "1"⟩, "tok",
   .ok 200 "200 OK" (some sampleIssueJson),
   .ok 200 "200 OK" (some (.arr [sampleCommentJson]))⟩

/-- A run environment with cache `{owner:"A", repo:"B", issueNumber:"1"}`
and only the `issueNumber` flag supplied, with value `"2"`. -/
def issueFlagOnlyWorld : World :=
  ⟨⟨"", "", "2"⟩, .content ⟨"A", "B", "1"⟩, "tok",
   .ok 200 "200 OK" (some sampleIssueJson),
   .ok 200 "200 OK" (some (.arr [sampleCommentJson]))⟩

/-- A run environment with no cache file, every flag supplied, a token
present, and both requests failing at the transport (the run's request
paths are observable in the trace regardless). -/
def flaggedNoCacheWorld : World :=
  ⟨⟨"octo", "hello", "5"⟩, .absent, "tok", .sendFailure, .sendFailure⟩

/-- Like `goodWorld`, but `GITHUB_ACCESS_TOKEN` is unset. -/
def tokenMissingWorld : World :=
  ⟨⟨"a", "b", "1"⟩, .absent, "",
   .ok 200 "200 OK" (some sampleIssueJson),
   .ok 200 "200 OK" (some (.arr [sampleCommentJson]))⟩

theorem foldl_cacheStep_commentEvents (cs : List Comment) :
    ∀ (i : Nat) (acc : Option String),
      List.foldl cacheStep acc (commentEvents i cs) = acc := by
  induction cs with
  | nil => intro i acc; rfl
  | cons c rest ih =>
    intro i acc
    by_cases h : i > 0 <;>
      simp [commentEvents, h, cacheStep, List.foldl_append, ih]

theorem httpPaths_commentEvents (cs : List Comment) :
    ∀ (i : Nat), httpPaths (commentEvents i cs) = [] := by
  induction cs with
  | nil => intro i; rfl
  | cons c rest ih =>
    intro i
    by_cases h : i > 0 <;>
      simp [commentEvents, h, httpPaths, List.filterMap_append] <;>
      simpa [httpPaths] using ih (i + 1)

theorem foldl_outputStep_commentEvents (cs : List Comment) :
    ∀ (i : Nat) (s : String),
      List.foldl outputStep (some s) (commentEvents i cs) =
        some (s ++ concatWrites (commentEvents i cs)) := by
  induction cs with
  | nil => intro i s; simp [commentEvents, concatWrites]
  | cons c rest ih =>
    intro i s
    by_cases h : i > 0 <;>
      simp [commentEvents, h, outputStep, concatWrites, List.foldl_append, ih,
        String.append_assoc]

theorem concatWrites_commentEvents_pos (cs : List Comment) :
    ∀ (i : Nat), 0 < i →
      concatWrites (commentEvents i cs) = seps (specBlocks (i + 1) cs) := by
  induction cs with
  | nil => intro i _; rfl
  | cons c rest ih =>
    intro i hi
    simp [commentEvents, hi, concatWrites, seps, specBlocks, specCommentBlock,
      commentHeader, ih (i + 1) (Nat.succ_pos i), String.append_assoc]

theorem joinBlankSeparated_cons (b : String) (bs : List String) :
    joinBlankSeparated (b :: bs) = b ++ seps bs := by
  induction bs generalizing b with
  | nil => simp [joinBlankSeparated, seps]
  | cons b2 rest ih => simp [joinBlankSeparated, seps, ih, String.append_assoc]

theorem concatWrites_commentEvents_zero (cs : List Comment) :
    concatWrites (commentEvents 0 cs) = joinBlankSeparated (specBlocks 1 cs) := by
  cases cs with
  | nil => rfl
  | cons c rest =>
    simp [commentEvents, concatWrites, specBlocks, specCommentBlock, commentHeader,
      joinBlankSeparated_cons, concatWrites_commentEvents_pos rest 1 Nat.one_pos,
      String.append_assoc]

theorem run_resolve_error (w : World) (e : String)
    (hres : resolveParams w.cache w.flags = .error e) :
    run w = ([], .fatal e) := by
  unfold run
  rw [hres]

theorem run_token_missing (w : World) (p u : Inputs)
    (hres : resolveParams w.cache w.flags = .ok (p, u)) (htok : w.token = "") :
    run w = ([.cacheWrite (marshalInputs p), .getenvToken],
             .fatal "GitHub access token not found in environment") := by
  unfold run
  rw [hres]
  simp [htok]

theorem run_trace_shape (w : World) (p u : Inputs)
    (hres : resolveParams w.cache w.flags = .ok (p, u)) (htok : ¬w.token = "") :
    ∃ rest, (run w).1 =
      Event.cacheWrite (marshalInputs p) :: Event.getenvToken ::
        Event.httpGet (issuePath u) :: rest := by
  unfold run
  rw [hres]
  simp only [htok, if_false]
  cases h1 : fetchIssue w.issueResp with
  | error e => exact ⟨[], rfl⟩
  | ok issue =>
    cases h2 : fetchComments w.commentsResp with
    | error e => exact ⟨_, rfl⟩
    | ok comments => exact ⟨_, rfl⟩

theorem run_issue_error (w : World) (p u : Inputs) (e : String)
    (hres : resolveParams w.cache w.flags = .ok (p, u)) (htok : ¬w.token = "")
    (hfi : fetchIssue w.issueResp = .error e) :
    run w = ([.cacheWrite (marshalInputs p), .getenvToken, .httpGet (issuePath u)],
             .fatal e) := by
  unfold run
  rw [hres]
  simp [htok, hfi]

theorem run_comments_error (w : World) (p u : Inputs) (issue : Issue) (e : String)
    (hres : resolveParams w.cache w.flags = .ok (p, u)) (htok : ¬w.token = "")
    (hfi : fetchIssue w.issueResp = .ok issue)
    (hfc : fetchComments w.commentsResp = .error e) :
    run w = ([.cacheWrite (marshalInputs p), .getenvToken, .httpGet (issuePath u),
              .outputCreate, .outputWrite (issueLine issue),
              .httpGet (issuePath u ++ "/comments")],
             .fatal e) := by
  unfold run
  rw [hres]
  simp [htok, hfi, hfc]

theorem run_success_eq (w : World) (p u : Inputs) (issue : Issue)
    (comments : List Comment)
    (hres : resolveParams w.cache w.flags = .ok (p, u)) (htok : ¬w.token = "")
    (hfi : fetchIssue w.issueResp = .ok issue)
    (hfc : fetchComments w.commentsResp = .ok comments) :
    run w = ([.cacheWrite (marshalInputs p), .getenvToken, .httpGet (issuePath u),
              .outputCreate, .outputWrite (issueLine issue),
              .httpGet (issuePath u ++ "/comments")] ++ commentEvents 0 comments,
             .success) := by
  unfold run
  rw [hres]
  simp [htok, hfi, hfc]

theorem commentLoopFallible_reliable (cs : List Comment) :
    ∀ (i k : Nat),
      commentLoopFallible (fun _ => false) i k cs = (commentEvents i cs, none) := by
  induction cs with
  | nil => intro i k; rfl
  | cons c rest ih =>
    intro i k
    by_cases h : i > 0 <;>
      simp [commentLoopFallible, commentEvents, h, ih]

theorem run_eq_runFallible_reliable (w : World) :
    run w = runFallible w reliableFs := by
  unfold run runFallible
  cases hres : resolveParams w.cache w.flags with
  | error e => rfl
  | ok pu =>
    obtain ⟨p, u⟩ := pu
    by_cases htok : w.token = ""
    · simp [htok]
    · simp only [htok, if_false]
      cases h1 : fetchIssue w.issueResp with
      | error e => rfl
      | ok issue =>
        cases h2 : fetchComments w.commentsResp with
        | error e => simp [reliableFs]
        | ok comments => simp [reliableFs, commentLoopFallible_reliable]

theorem runFallible_resolve_error (w : World) (io : OutputFs) (e : String)
    (hres : resolveParams w.cache w.flags = .error e) :
    runFallible w io = ([], .fatal e) := by
  unfold runFallible
  rw [hres]

theorem runFallible_token_missing (w : World) (io : OutputFs) (p u : Inputs)
    (hres : resolveParams w.cache w.flags = .ok (p, u)) (htok : w.token = "") :
    runFallible w io = ([.cacheWrite (marshalInputs p), .getenvToken],
             .fatal "GitHub access token not found in environment") := by
  unfold runFallible
  rw [hres]
  simp [htok]

theorem runFallible_issue_error (w : World) (io : OutputFs) (p u : Inputs)
    (e : String)
    (hres : resolveParams w.cache w.flags = .ok (p, u)) (htok : ¬w.token = "")
    (hfi : fetchIssue w.issueResp = .error e) :
    runFallible w io =
      ([.cacheWrite (marshalInputs p), .getenvToken, .httpGet (issuePath u)],
       .fatal e) := by
  unfold runFallible
  rw [hres]
  simp [htok, hfi]

theorem runFallible_create_fails (w : World) (io : OutputFs) (p u : Inputs)
    (issue : Issue)
    (hres : resolveParams w.cache w.flags = .ok (p, u)) (htok : ¬w.token = "")
    (hfi : fetchIssue w.issueResp = .ok issue)
    (hcreate : io.createFails = true) :
    runFallible w io =
      ([.cacheWrite (marshalInputs p), .getenvToken, .httpGet (issuePath u)],
       .fatal "Failed to create file") := by
  unfold runFallible
  rw [hres]
  simp [htok, hfi, hcreate]

theorem runFallible_comments_error (w : World) (io : OutputFs) (p u : Inputs)
    (issue : Issue) (e : String)
    (hres : resolveParams w.cache w.flags = .ok (p, u)) (htok : ¬w.token = "")
    (hfi : fetchIssue w.issueResp = .ok issue)
    (hcreate : io.createFails = false) (hw0 : io.writeFails 0 = false)
    (hfc : fetchComments w.commentsResp = .error e) :
    runFallible w io =
      ([.cacheWrite (marshalInputs p), .getenvToken, .httpGet (issuePath u),
        .outputCreate, .outputWrite (issueLine issue),
        .httpGet (issuePath u ++ "/comments")],
       .fatal e) := by
  unfold runFallible
  rw [hres]
  simp [htok, hfi, hcreate, hw0, hfc]

theorem run_cacheFileAfter (w : World) (p u : Inputs)
    (hres : resolveParams w.cache w.flags = .ok (p, u)) :
    cacheFileAfter (run w).1 = some (marshalInputs p) := by
  by_cases htok : w.token = ""
  · rw [run_token_missing w p u hres htok]
    rfl
  · cases hfi : fetchIssue w.issueResp with
    | error e =>
      rw [run_issue_error w p u e hres htok hfi]
      rfl
    | ok issue =>
      cases hfc : fetchComments w.commentsResp with
      | error e =>
        rw [run_comments_error w p u issue e hres htok hfi hfc]
        rfl
      | ok comments =>
        rw [run_success_eq w p u issue comments hres htok hfi hfc]
        simp [cacheFileAfter, List.foldl_append, cacheStep,
          foldl_cacheStep_commentEvents]

/-- C1: code-bug evidence. With no cache file, flags owner `octo`, repo
`hello`, issueNumber `5`, and a token present, the run writes the flag
values to the cache file, yet its first HTTP GET goes to
`/repos///issues/` and not to `/repos/octo/hello/issues/5`: the no-cache
branch of the source (lines 99-124) never assigns the flag values to the
`current*` variables the request path is built from (lines 69-72,
133-135, 152), so the flag-supplied parameter set is persisted but not
used for the request, contrary to the claim. -/
theorem C1_no_cache_request_ignores_flags :
    cacheFileAfter (run flaggedNoCacheWorld).1 =
      some (marshalInputs ⟨"octo", "hello", "5"⟩) ∧
    (httpPaths (run flaggedNoCacheWorld).1).head? = some "/repos///issues/" ∧
    ¬("/repos///issues/" : String) = "/repos/octo/hello/issues/5" :=
  ⟨rfl, rfl, by decide⟩

/-- C2 counterexample: with a cached-free configuration, a present token,
a 200 issue response and a 404 comments response, the run aborts fatally
yet `comments.txt` holds the issue block — a non-empty proper prefix of
the transcript the same environment with a 200 comments response yields.
This refutes the claim that no fatal failure leaves partial output. -/
theorem C2_counterexample_partial_output :
    (run commentsFailWorld).2 =
      .fatal "Comments request failed with status: 404 Not Found" ∧
    outputFileAfter (run commentsFailWorld).1 = some (issueLine sampleIssue) ∧
    outputFileAfter (run goodWorld).1 =
      some (specTranscript sampleIssue [sampleComment]) ∧
    issueLine sampleIssue ++
        ("Comment 1 by bob at 2023-05-03 09:15:00:\nhello\n") =
      specTranscript sampleIssue [sampleComment] ∧
    ¬issueLine sampleIssue = specTranscript sampleIssue [sampleComment] := by
  exact ⟨rfl, rfl, rfl, rfl, by decide⟩

/-- C2 amended: the no-partial-output claim fails. Over the
fallible-filesystem run (which also models failing output writes): a
fatal failure on the comments request, its status check, or comments
decoding leaves the output file containing exactly the issue block — a
proper prefix of the full transcript — while a fatal failure occurring
before the output file is created (configuration, missing token, issue
request, issue status, issue decoding, output-file creation) leaves the
output file untouched. -/
theorem C2_amended_partial_output_modes (w : World) (io : OutputFs) :
    (∀ (p u : Inputs) (issue : Issue) (e : String),
      resolveParams w.cache w.flags = .ok (p, u) → ¬w.token = "" →
      fetchIssue w.issueResp = .ok issue →
      io.createFails = false → io.writeFails 0 = false →
      fetchComments w.commentsResp = .error e →
      (runFallible w io).2 = .fatal e ∧
      outputFileAfter (runFallible w io).1 = some (issueLine issue)) ∧
    (∀ e, resolveParams w.cache w.flags = .error e →
      outputFileAfter (runFallible w io).1 = none) ∧
    (w.token = "" → outputFileAfter (runFallible w io).1 = none) ∧
    (∀ e, fetchIssue w.issueResp = .error e →
      outputFileAfter (runFallible w io).1 = none) ∧
    (io.createFails = true → outputFileAfter (runFallible w io).1 = none) := by
  refine ⟨?_, ?_, ?_, ?_, ?_⟩
  · intro p u issue e hres htok hfi hcf hw0 hfc
    rw [runFallible_comments_error w io p u issue e hres htok hfi hcf hw0 hfc]
    exact ⟨rfl, by simp [outputFileAfter, outputStep]⟩
  · intro e hres
    rw [runFallible_resolve_error w io e hres]
    rfl
  · intro htok
    cases hres : resolveParams w.cache w.flags with
    | error e =>
      rw [runFallible_resolve_error w io e hres]
      rfl
    | ok pu =>
      obtain ⟨p, u⟩ := pu
      rw [runFallible_token_missing w io p u hres htok]
      rfl
  · intro e hfi
    cases hres : resolveParams w.cache w.flags with
    | error e2 =>
      rw [runFallible_resolve_error w io e2 hres]
      rfl
    | ok pu =>
      obtain ⟨p, u⟩ := pu
      by_cases htok : w.token = ""
      · rw [runFallible_token_missing w io p u hres htok]
        rfl
      · rw [runFallible_issue_error w io p u e hres htok hfi]
        rfl
  · intro hcf
    cases hres : resolveParams w.cache w.flags with
    | error e2 =>
      rw [runFallible_resolve_error w io e2 hres]
      rfl
    | ok pu =>
      obtain ⟨p, u⟩ := pu
      by_cases htok : w.token = ""
      · rw [runFallible_token_missing w io p u hres htok]
        rfl
      · cases hfi : fetchIssue w.issueResp with
        | error e2 =>
          rw [runFallible_issue_error w io p u e2 hres htok hfi]
          rfl
        | ok issue =>
          rw [runFallible_create_fails w io p u issue hres htok hfi hcf]
          rfl

/-- C2 amended witness: the comments-failure part of the theorem applied
to the 404-comments environment under the reliable filesystem. -/
theorem C2_amended_partial_output_modes_witness :
    (runFallible commentsFailWorld reliableFs).2 =
      .fatal "Comments request failed with status: 404 Not Found" ∧
    outputFileAfter (runFallible commentsFailWorld reliableFs).1 =
      some (issueLine sampleIssue) :=
  (C2_amended_partial_output_modes commentsFailWorld reliableFs).1
    ⟨"a", "b", "1"⟩ ⟨"", "", ""⟩ sampleIssue
    "Comments request failed with status: 404 Not Found"
    rfl (by decide) rfl rfl rfl rfl

/-- C3: when the cache file exists and its loaded owner or repo is empty,
the run aborts fatally with the corrupt-cache message and issues no HTTP
request at all, whatever the flags supplied. -/
theorem C3_empty_cached_owner_fatal_before_network (w : World) (i : Inputs)
    (hcache : w.cache = .content i) (hempty : i.owner = "" ∨ i.repo = "") :
    (run w).2 =
      .fatal "The 'owner' and 'repo' fields in github-comments-fetcher-inputs.txt cannot be empty" ∧
    httpPaths (run w).1 = [] := by
  have hres : resolveParams w.cache w.flags =
      .error "The 'owner' and 'repo' fields in github-comments-fetcher-inputs.txt cannot be empty" := by
    rw [hcache]
    simp [resolveParams, hempty]
  rw [run_resolve_error w _ hres]
  exact ⟨rfl, rfl⟩

/-- C3 witness: the theorem applied to the empty-cached-owner
environment, whose flags supply every field. -/
theorem C3_empty_cached_owner_fatal_before_network_witness :
    (run emptyOwnerCacheWorld).2 =
      .fatal "The 'owner' and 'repo' fields in github-comments-fetcher-inputs.txt cannot be empty" ∧
    httpPaths (run emptyOwnerCacheWorld).1 = [] :=
  C3_empty_cached_owner_fatal_before_network emptyOwnerCacheWorld
    ⟨"", "r", "1"⟩ rfl (Or.inl rfl)

/-- C4: with cache `{owner:A, repo:B, issueNumber:"1"}` (A, B non-empty)
and only the issueNumber flag supplied with value `"2"`, the cache file
after the run is exactly the marshalled `{owner:A, repo:B,
issueNumber:"2"}`; and in general each supplied flag overrides the
corresponding cached field while unsupplied fields are preserved. -/
theorem C4_flag_overrides_preserve_cached_fields (A B : String)
    (hA : ¬A = "") (hB : ¬B = "") (w : World)
    (hcache : w.cache = .content ⟨A, B, "1"⟩)
    (hflags : w.flags = ⟨"", "", "2"⟩) :
    cacheFileAfter (run w).1 = some (marshalInputs ⟨A, B, "2"⟩) ∧
    (∀ (i : Inputs) (f : Flags), ¬i.owner = "" → ¬i.repo = "" →
      resolveParams (.content i) f =
        .ok (⟨if f.owner ≠ "" then f.owner else i.owner,
              if f.repo ≠ "" then f.repo else i.repo,
              if f.issueNumber ≠ "" then f.issueNumber else i.issueNumber⟩,
             ⟨if f.owner ≠ "" then f.owner else i.owner,
              if f.repo ≠ "" then f.repo else i.repo,
              if f.issueNumber ≠ "" then f.issueNumber else i.issueNumber⟩)) := by
  constructor
  · have hres : resolveParams w.cache w.flags =
        .ok (⟨A, B, "2"⟩, ⟨A, B, "2"⟩) := by
      rw [hcache, hflags]
      simp [resolveParams, hA, hB]
    exact run_cacheFileAfter w _ _ hres
  · intro i f hio hir
    simp [resolveParams, hio, hir]

/-- C4 witness: the theorem applied to the issueNumber-flag-only
environment with cache `{owner:"A", repo:"B", issueNumber:"1"}`. -/
theorem C4_flag_overrides_preserve_cached_fields_witness :
    cacheFileAfter (run issueFlagOnlyWorld).1 =
      some (marshalInputs ⟨"A", "B", "2"⟩) ∧
    resolveParams (.content ⟨"A", "B", "1"⟩) ⟨"", "", "2"⟩ =
      .ok (⟨"A", "B", "2"⟩, ⟨"A", "B", "2"⟩) := by
  have h := C4_flag_overrides_preserve_cached_fields "A" "B"
    (by decide) (by decide) issueFlagOnlyWorld rfl rfl
  exact ⟨h.1, h.2 ⟨"A", "B", "1"⟩ ⟨"", "", "2"⟩ (by decide) (by decide)⟩

/-- C5: with no cache file, the cache file after the run is exactly the
marshalled flag values — pretty-printed JSON with keys `owner`, `repo`,
`issueNumber` (shown concretely for owner `A`, repo `B`, issueNumber
`3`) — and this branch performs no non-emptiness validation: resolution
succeeds for every flag assignment, the empty ones included. -/
theorem C5_fresh_cache_written_from_flags_unvalidated (w : World)
    (hcache : w.cache = .absent) :
    cacheFileAfter (run w).1 =
      some (marshalInputs ⟨w.flags.owner, w.flags.repo, w.flags.issueNumber⟩) ∧
    (∀ f : Flags, resolveParams .absent f =
      .ok (⟨f.owner, f.repo, f.issueNumber⟩, ⟨"", "", ""⟩)) ∧
    marshalInputs ⟨"A", "B", "3"⟩ =
      "\x7b\n  \"owner\": \"A\",\n  \"repo\": \"B\",\n  \"issueNumber\": \"3\"\n\x7d" := by
  refine ⟨?_, fun f => rfl, rfl⟩
  have hres : resolveParams w.cache w.flags =
      .ok (⟨w.flags.owner, w.flags.repo, w.flags.issueNumber⟩, ⟨"", "", ""⟩) := by
    rw [hcache]
    rfl
  exact run_cacheFileAfter w _ _ hres

/-- C5 witness: the theorem applied to an environment with no cache file
and flags `owner="A"`, `repo="B"`, `issueNumber="3"`. -/
theorem C5_fresh_cache_written_from_flags_unvalidated_witness :
    cacheFileAfter
        (run ⟨⟨"A", "B", "3"⟩, .absent, "tok", .sendFailure, .sendFailure⟩).1 =
      some "\x7b\n  \"owner\": \"A\",\n  \"repo\": \"B\",\n  \"issueNumber\": \"3\"\n\x7d" := by
  have h := C5_fresh_cache_written_from_flags_unvalidated
    ⟨⟨"A", "B", "3"⟩, .absent, "tok", .sendFailure, .sendFailure⟩ rfl
  rw [h.1, h.2.2]

/-- C6: whenever `GITHUB_ACCESS_TOKEN` is absent (empty), the run ends in
a fatal abort and issues zero HTTP requests, whatever the rest of the
environment. -/
theorem C6_missing_token_aborts_before_any_request (w : World)
    (htok : w.token = "") :
    (∃ m, (run w).2 = .fatal m) ∧ httpPaths (run w).1 = [] := by
  cases hres : resolveParams w.cache w.flags with
  | error e =>
    rw [run_resolve_error w e hres]
    exact ⟨⟨e, rfl⟩, rfl⟩
  | ok pu =>
    obtain ⟨p, u⟩ := pu
    rw [run_token_missing w p u hres htok]
    exact ⟨⟨_, rfl⟩, rfl⟩

/-- C6 witness: the theorem applied to the token-missing environment. -/
theorem C6_missing_token_aborts_before_any_request_witness :
    (∃ m, (run tokenMissingWorld).2 = .fatal m) ∧
    httpPaths (run tokenMissingWorld).1 = [] :=
  C6_missing_token_aborts_before_any_request tokenMissingWorld rfl

/-- C7: a non-200 status from the issue endpoint is fatal with the status
text and leaves the output file neither created nor truncated, and a
non-200 status from the comments endpoint is fatal with the status text. -/
theorem C7_non_200_fatal_with_status_text :
    (∀ (w : World) (p u : Inputs) (st : Nat) (txt : String) (b : Option Json),
      resolveParams w.cache w.flags = .ok (p, u) → ¬w.token = "" →
      w.issueResp = .ok st txt b → ¬st = 200 →
      (run w).2 = .fatal ("Request failed with status: " ++ txt) ∧
      outputFileAfter (run w).1 = none) ∧
    (∀ (w : World) (p u : Inputs) (issue : Issue) (st : Nat) (txt : String)
        (b : Option Json),
      resolveParams w.cache w.flags = .ok (p, u) → ¬w.token = "" →
      fetchIssue w.issueResp = .ok issue →
      w.commentsResp = .ok st txt b → ¬st = 200 →
      (run w).2 = .fatal ("Comments request failed with status: " ++ txt)) := by
  constructor
  · intro w p u st txt b hres htok hresp hst
    have hfi : fetchIssue w.issueResp =
        .error ("Request failed with status: " ++ txt) := by
      rw [hresp]
      simp [fetchIssue, hst]
    rw [run_issue_error w p u _ hres htok hfi]
    exact ⟨rfl, rfl⟩
  · intro w p u issue st txt b hres htok hfi hresp hst
    have hfc : fetchComments w.commentsResp =
        .error ("Comments request failed with status: " ++ txt) := by
      rw [hresp]
      simp [fetchComments, hst]
    rw [run_comments_error w p u issue _ hres htok hfi hfc]

/-- C7 witness: both parts of the theorem applied to the 404-issue and
404-comments environments. -/
theorem C7_non_200_fatal_with_status_text_witness :
    ((run issueFailWorld).2 =
        .fatal "Request failed with status: 404 Not Found" ∧
      outputFileAfter (run issueFailWorld).1 = none) ∧
    (run commentsFailWorld).2 =
      .fatal "Comments request failed with status: 404 Not Found" := by
  refine ⟨C7_non_200_fatal_with_status_text.1 issueFailWorld ⟨"a", "b", "1"⟩
    ⟨"", "", ""⟩ 404 "404 Not Found" (some .null) rfl (by decide) rfl
    (by decide), ?_⟩
  exact C7_non_200_fatal_with_status_text.2 commentsFailWorld ⟨"a", "b", "1"⟩
    ⟨"", "", ""⟩ sampleIssue 404 "404 Not Found" (some (.arr [])) rfl
    (by decide) rfl rfl (by decide)

/-- C8: every successful run writes to a freshly created output file the
issue header block ending in a blank line, then the comment blocks in
server order with 1-based indices, exactly one blank line between
consecutive blocks and none before the first — the spec-side transcript. -/
theorem C8_success_output_is_spec_transcript (w : World) (p u : Inputs)
    (issue : Issue) (comments : List Comment) (txt1 txt2 : String)
    (bi bc : Json)
    (hres : resolveParams w.cache w.flags = .ok (p, u)) (htok : ¬w.token = "")
    (hiresp : w.issueResp = .ok 200 txt1 (some bi))
    (hdi : decodeIssue bi = .ok issue)
    (hcresp : w.commentsResp = .ok 200 txt2 (some bc))
    (hdc : decodeComments bc = .ok comments) :
    (run w).2 = .success ∧
    outputFileAfter (run w).1 = some (specTranscript issue comments) := by
  have hfi : fetchIssue w.issueResp = .ok issue := by
    rw [hiresp]
    simp [fetchIssue, unmarshalIssue, hdi]
  have hfc : fetchComments w.commentsResp = .ok comments := by
    rw [hcresp]
    simp [fetchComments, unmarshalComments, hdc]
  rw [run_success_eq w p u issue comments hres htok hfi hfc]
  refine ⟨rfl, ?_⟩
  simp [outputFileAfter, List.foldl_append, outputStep,
    foldl_outputStep_commentEvents, concatWrites_commentEvents_zero,
    specTranscript]

/-- C8 witness: the theorem applied to the all-good sample environment
with one comment. -/
theorem C8_success_output_is_spec_transcript_witness :
    (run goodWorld).2 = .success ∧
    outputFileAfter (run goodWorld).1 =
      some (specTranscript sampleIssue [sampleComment]) :=
  C8_success_output_is_spec_transcript goodWorld ⟨"a", "b", "1"⟩ ⟨"", "", ""⟩
    sampleIssue [sampleComment] "200 OK" "200 OK" sampleIssueJson
    (.arr [sampleCommentJson]) rfl (by decide) rfl rfl rfl rfl

/-- C10: in every run whose parameter resolution succeeds, the cache file
is written with the merged parameters before the credential is read (the
cache write is the first event, the credential read the second), so a run
aborting for a missing token still leaves the cache file updated. -/
theorem C10_cache_written_before_credential_read (w : World) (p u : Inputs)
    (hres : resolveParams w.cache w.flags = .ok (p, u)) :
    (∃ rest, (run w).1 =
      Event.cacheWrite (marshalInputs p) :: Event.getenvToken :: rest) ∧
    cacheFileAfter (run w).1 = some (marshalInputs p) ∧
    (w.token = "" →
      (run w).2 = .fatal "GitHub access token not found in environment" ∧
      cacheFileAfter (run w).1 = some (marshalInputs p)) := by
  refine ⟨?_, run_cacheFileAfter w p u hres, fun htok => ?_⟩
  · by_cases htok : w.token = ""
    · rw [run_token_missing w p u hres htok]
      exact ⟨[], rfl⟩
    · obtain ⟨rest, hr⟩ := run_trace_shape w p u hres htok
      exact ⟨_, hr⟩
  · rw [run_token_missing w p u hres htok]
    exact ⟨rfl, rfl⟩

/-- C10 witness: the theorem applied to the token-missing environment. -/
theorem C10_cache_written_before_credential_read_witness :
    (∃ rest, (run tokenMissingWorld).1 =
      Event.cacheWrite (marshalInputs ⟨"a", "b", "1"⟩) ::
        Event.getenvToken :: rest) ∧
    (run tokenMissingWorld).2 =
      .fatal "GitHub access token not found in environment" ∧
    cacheFileAfter (run tokenMissingWorld).1 =
      some (marshalInputs ⟨"a", "b", "1"⟩) := by
  have h := C10_cache_written_before_credential_read tokenMissingWorld
    ⟨"a", "b", "1"⟩ ⟨"", "", ""⟩ rfl
  exact ⟨h.1, h.2.2 rfl⟩

end GithubCommentsFetcher
